import Mathlib

/-!
Shallow embedding of the analytics computation engine of
`src/app/api_service.py` (endpoints `get_churn_metrics`,
`get_anomaly_metrics`, `get_high_value_customers`, `get_revenue_analytics`).

Modelling conventions:
* pandas/python floats are idealised as exact rationals (`ℚ`);
* `NaN`-producing statistics (mean/std of too-small samples) are modelled
  with `Option`: `none` plays the role of `NaN`, and every comparison

  against `none` is `false`, exactly as IEEE comparisons with `NaN`;
* the one place where an IEEE infinity is observable (the revenue growth
  ratio) uses the dedicated type `PyFloat`;
* timestamps are modelled at day granularity as epoch-day numbers (`ℤ`);
  calendar month and week bucket keys are computed from the epoch day with
  the standard civil-calendar algorithm;
* `mean + 3 * std` comparisons are expressed without square roots through
  the exact equivalence `a > m + 3 * sqrt v ↔ a > m ∧ (a - m)^2 > 9 * v`
  (for `v ≥ 0`); the equivalence with the real-number formula is proved in
  `isAmountAnomalous_iff_real`.
-/

namespace DataPlatform

attribute [local semireducible] Rat.add Rat.sub Rat.mul Rat.inv

/-- Python builtin `round` on an exact rational: round half to even. -/
def pyRound (q : ℚ) : ℤ :=
  if q - ⌊q⌋ < 1/2 then ⌊q⌋
  else if (1 : ℚ)/2 < q - ⌊q⌋ then ⌊q⌋ + 1
  else if ⌊q⌋ % 2 = 0 then ⌊q⌋ else ⌊q⌋ + 1

/-- `round(x, 2)` as used throughout the source: round to two decimals. -/
def round2 (q : ℚ) : ℚ := (pyRound (q * 100) : ℚ) / 100

/-- A rational that is a whole number of hundredths (two-decimal currency). -/
def isCents (q : ℚ) : Prop := ∃ z : ℤ, q = (z : ℚ) / 100

instance : DecidablePred isCents := fun q =>
  decidable_of_iff ((q * 100).den = 1) (by
    constructor
    · intro h
      refine ⟨(q * 100).num, ?_⟩
      have hq : ((q * 100).num : ℚ) = q * 100 := by
        conv_rhs => rw [← Rat.num_div_den (q * 100)]
        rw [h]
        simp
      rw [hq]
      field_simp
    · rintro ⟨z, rfl⟩
      have : (z : ℚ) / 100 * 100 = (z : ℚ) := by field_simp
      rw [this]
      exact Rat.den_intCast z)

/-! ## Calendar arithmetic

`transaction_date` values are pandas timestamps; the analytics only ever use
their date component (`dt.date`, `dt.to_period`), so the embedding keeps an
epoch-day number.  `civilFromDays` is the standard civil-from-days
conversion giving `(year, month, day)`. -/

/-- Calendar date `(year, month, day)` of an epoch-day number
(day 0 = 1970-01-01). -/
def civilFromDays (z : ℤ) : ℤ × ℤ × ℤ :=
  let zs := z + 719468
  let era := zs.fdiv 146097
  let doe := zs - era * 146097
  let yoe := (doe - doe.ediv 1460 + doe.ediv 36524 - doe.ediv 146096).ediv 365
  let y := yoe + era * 400
  let doy := doe - (365 * yoe + yoe.ediv 4 - yoe.ediv 100)
  let mp := (5 * doy + 2).ediv 153
  let d := doy - (153 * mp + 2).ediv 5 + 1
  let m := if mp < 10 then mp + 3 else mp - 9
  (if m ≤ 2 then y + 1 else y, m, d)

/-- Bucket key of `dt.date` grouping (daily): the epoch day itself. -/
def dayKey (z : ℤ) : ℤ := z

/-- Bucket key of `dt.to_period('W')` grouping: weeks run Monday to Sunday;
epoch day 4 (1970-01-05) is a Monday. -/
def weekKey (z : ℤ) : ℤ := (z - 4).fdiv 7

/-- Bucket key of `dt.to_period('M')` grouping: linearised year-month. -/
def monthKey (z : ℤ) : ℤ :=
  (civilFromDays z).1 * 12 + (civilFromDays z).2.1

/-! ## Data model (§3 of the spec, `customers.csv` / `transactions.csv`) -/

/-- A `customers` row (only the columns the analytics read). -/
structure Customer where
  customer_id : ℕ
  registration_date : ℤ
deriving DecidableEq, Repr

/-- A `transactions` row (only the columns the analytics read). -/
structure Transaction where
  transaction_id : ℕ
  customer_id : ℕ
  transaction_date : ℤ
  amount : ℚ
  status : String
deriving DecidableEq, Repr

/-- Ascending list of the distinct values of a column, as produced by
`DataFrame.groupby` (which sorts group keys). -/
def sortedKeys {α : Type} [LinearOrder α] [DecidableEq α] (l : List α) : List α :=
  l.dedup.insertionSort (· ≤ ·)

/-! ## Churn Analyzer (`get_churn_metrics`, lines 145-185) -/

/-- Distinct customer ids appearing in the transactions
(`transactions_df.groupby('customer_id')` keys). -/
def txCustomers (txs : List Transaction) : List ℕ :=
  sortedKeys (txs.map (·.customer_id))

/-- `transactions_df.groupby('customer_id')['transaction_date'].max()` for one
customer id; junk `0` if the id has no transactions (never reached by the
pipeline, which evaluates it only on ids drawn from the transactions). -/
def lastTxDate (txs : List Transaction) (c : ℕ) : ℤ :=
  (((txs.filter (fun t => t.customer_id = c)).map (·.transaction_date)).max?).getD 0

/-- `(current_date - last_transaction).dt.days` for one customer. -/
def days_since_last (txs : List Transaction) (now : ℤ) (c : ℕ) : ℤ :=
  now - lastTxDate txs c

/-- `(days_since_last > churn_threshold).sum()` with the hardcoded 90. -/
def churnedCount (txs : List Transaction) (now : ℤ) : ℕ :=
  (txCustomers txs).countP (fun c => decide (90 < days_since_last txs now c))

/-- `((days_since_last > 60) & (days_since_last <= 90)).sum()`. -/
def atRiskCount (txs : List Transaction) (now : ℤ) : ℕ :=
  (txCustomers txs).countP
    (fun c => decide (60 < days_since_last txs now c) &&
              decide (days_since_last txs now c ≤ 90))

/-- The `churn_data` payload of `get_churn_metrics`. -/
structure ChurnData where
  churn_rate : ℚ
  churned_customers : ℕ
  at_risk_customers : ℕ
  total_customers : ℕ
  active_customers : ℤ
  churn_threshold_days : ℕ
deriving DecidableEq, Repr

/-- `get_churn_metrics` (lines 145-185): pure part of the endpoint, taking the
loaded collections and the reference timestamp `datetime.now()`. -/
def get_churn_metrics (customers : List Customer) (txs : List Transaction)
    (now : ℤ) : ChurnData :=
  let churned := churnedCount txs now
  let at_risk := atRiskCount txs now
  let total := customers.length
  { churn_rate := if 0 < total then round2 ((churned : ℚ) / (total : ℚ) * 100) else 0
    churned_customers := churned
    at_risk_customers := at_risk
    total_customers := total
    active_customers := (total : ℤ) - (churned : ℤ)
    churn_threshold_days := 90 }

/-! ## Anomaly Detector (`get_anomaly_metrics`, lines 187-240)

pandas `mean()` of an empty series and `std()` (sample standard deviation,
`ddof=1`) of a series of length at most one are `NaN`; every comparison with
`NaN` is false, so no row is flagged in those cases.  The embedding keeps
the pair `(mean, sample variance)` in an `Option`: `none` when the standard
deviation would be `NaN`.  `amount > mean + 3*std` is encoded without a
square root as `amount > mean ∧ (amount - mean)^2 > 9*var`, which is
exactly equivalent (see `gt_mean_add_three_sqrt_iff`). -/

/-- `transactions_df['amount']` as a list. -/
def amounts (txs : List Transaction) : List ℚ := txs.map (·.amount)

/-- pandas `Series.mean()` (junk `0` on an empty list; the pipeline guards
every use by the `Option` in `statsOf` or by a non-emptiness test). -/
def listMean (l : List ℚ) : ℚ := l.sum / (l.length : ℚ)

/-- pandas `Series.var()` with the default `ddof=1` (sample variance). -/
def sampleVar (l : List ℚ) : ℚ :=
  (l.map (fun x => (x - listMean l) ^ 2)).sum / ((l.length : ℚ) - 1)

/-- Mean and sample variance of a list, `none` when fewer than two values
(where pandas `std()` is `NaN`). -/
def statsOf (l : List ℚ) : Option (ℚ × ℚ) :=
  if 2 ≤ l.length then some (listMean l, sampleVar l) else none

/-- `(mean_amount, std_amount^2)` of `transactions_df['amount']` (lines
196-197); `none` when `std` is `NaN`. -/
def amountStats (txs : List Transaction) : Option (ℚ × ℚ) :=
  statsOf (amounts txs)

/-- `amount > threshold` with `threshold = mean + 3*std` (lines 199-201),
encoded by squaring; false when the threshold is `NaN`. -/
def isAmountAnomalous (st : Option (ℚ × ℚ)) (a : ℚ) : Bool :=
  match st with
  | none => false
  | some (m, v) => decide (m < a) && decide (9 * v < (a - m) ^ 2)

/-- `anomalous_transactions` (line 201), in DataFrame row order. -/
def anomalousTxs (txs : List Transaction) : List Transaction :=
  txs.filter (fun t => isAmountAnomalous (amountStats txs) t.amount)

/-- Distinct calendar days of the transactions, ascending
(`groupby(transactions_df['transaction_date'].dt.date)` keys). -/
def dayKeys (txs : List Transaction) : List ℤ :=
  sortedKeys (txs.map (·.transaction_date))

/-- `daily_counts` (line 203): transactions per day, by ascending day. -/
def dailyCounts (txs : List Transaction) : List ℕ :=
  (dayKeys txs).map (fun d => (txs.filter (fun t => t.transaction_date = d)).length)

/-- `(daily_mean, daily_std^2)` (lines 204-205), `none` when `std` is `NaN`. -/
def dailyStats (txs : List Transaction) : Option (ℚ × ℚ) :=
  statsOf ((dailyCounts txs).map (fun n => (n : ℚ)))

/-- Day-count outside `[max(0, mean - 2*std), mean + 2*std]` (lines 207-212),
encoded by squaring; applied only to day counts, which are nonnegative, so
`count < max(0, mean - 2*std)` is `count < mean - 2*std`.  When `std` is
`NaN` the upper comparison is false and the lower bound is `max(0, NaN) = 0`,
so nothing is flagged. -/
def isDayAnomalous (st : Option (ℚ × ℚ)) (c : ℚ) : Bool :=
  match st with
  | none => false
  | some (m, v) =>
      (decide (m < c) && decide (4 * v < (c - m) ^ 2)) ||
      (decide (c < m) && decide (4 * v < (m - c) ^ 2))

/-- One record of the `recent_anomalies` payload (lines 227-229). -/
structure RecentAnomaly where
  transaction_id : ℕ
  customer_id : ℕ
  amount : ℚ
  transaction_date : ℤ
deriving DecidableEq, Repr

/-- Projection of a transaction row onto the reported columns. -/
def recentOf (t : Transaction) : RecentAnomaly :=
  ⟨t.transaction_id, t.customer_id, t.amount, t.transaction_date⟩

/-- The `anomaly_data` payload of `get_anomaly_metrics`.  `large_stats` and
`daily_stats` carry the `(mean, variance)` pairs behind the reported
`threshold` fields (`threshold = mean + 3*std`, `upper/lower = mean ∓ 2*std`);
`none` stands for the `NaN` thresholds pandas reports on degenerate input. -/
structure AnomalyData where
  large_count : ℕ
  large_stats : Option (ℚ × ℚ)
  large_total_value : ℚ
  large_avg_amount : ℚ
  recent_anomalies : List RecentAnomaly
  anomalous_days : ℕ
  daily_stats : Option (ℚ × ℚ)
deriving DecidableEq, Repr

/-- `get_anomaly_metrics` (lines 187-240): pure part of the endpoint.
`tail(10)` keeps the last (at most) ten rows in DataFrame order. -/
def get_anomaly_metrics (txs : List Transaction) : AnomalyData :=
  let anoms := anomalousTxs txs
  { large_count := anoms.length
    large_stats := amountStats txs
    large_total_value := round2 (amounts anoms).sum
    large_avg_amount :=
      if 0 < anoms.length then round2 (listMean (amounts anoms)) else 0
    recent_anomalies := (anoms.drop (anoms.length - 10)).map recentOf
    anomalous_days :=
      (dailyCounts txs).countP (fun n => isDayAnomalous (dailyStats txs) (n : ℚ))
    daily_stats := dailyStats txs }

/-! ## Segmentation Engine (`get_high_value_customers`, lines 242-309) -/

/-- One row of `customer_spending` (lines 252-258): the per-customer spend
profile, with the `.round(2)` the source applies to the aggregated frame. -/
structure SpendProfile where
  customer_id : ℕ
  transaction_count : ℕ
  total_spent : ℚ
  avg_order_value : ℚ
  first_purchase : ℤ
  last_purchase : ℤ
deriving DecidableEq, Repr

/-- `customer_spending` (lines 252-258): one profile per distinct customer id
of the transactions, in groupby key order (ascending id). -/
def profilesOf (txs : List Transaction) : List SpendProfile :=
  (txCustomers txs).map (fun c =>
    let g := txs.filter (fun t => t.customer_id = c)
    { customer_id := c
      transaction_count := g.length
      total_spent := round2 (amounts g).sum
      avg_order_value := round2 (listMean (amounts g))
      first_purchase := (((g.map (·.transaction_date)).min?).getD 0)
      last_purchase := (((g.map (·.transaction_date)).max?).getD 0) })

/-- The `total_spent` column. -/
def spendList (txs : List Transaction) : List ℚ :=
  (profilesOf txs).map (·.total_spent)

/-- pandas `Series.quantile(p)` on an already sorted list: linear
interpolation at position `p * (n - 1)` over the sorted values. -/
def quantileSorted (s : List ℚ) (p : ℚ) : ℚ :=
  if s.length = 0 then 0
  else
    let h : ℚ := p * ((s.length : ℚ) - 1)
    let i : ℕ := (Int.floor h).toNat
    let a : ℚ := s.getD i 0
    let b : ℚ := s.getD (i + 1) a
    a + (h - (i : ℚ)) * (b - a)

/-- pandas `Series.quantile(p)` (sorts, then interpolates); junk `0` on an
empty series, where pandas gives `NaN` (the pipeline only compares against
it over empty row sets, where both give the empty result). -/
def quantileOf (l : List ℚ) (p : ℚ) : ℚ :=
  quantileSorted (l.insertionSort (· ≤ ·)) p

/-- The reported `quantile(p)` value: `none` on an empty series (`NaN`). -/
def quantileOpt (l : List ℚ) (p : ℚ) : Option ℚ :=
  if l.length = 0 then none else some (quantileOf l p)

/-- The four percentile cut points `[0.95, 0.8, 0.6, 0.4]` (line 268). -/
def tierLowerP (i : ℕ) : ℚ :=
  match i with
  | 0 => 95/100
  | 1 => 8/10
  | 2 => 6/10
  | _ => 4/10

/-- `segment_names` (line 269). -/
def tierName (i : ℕ) : String :=
  match i with
  | 0 => "Platinum"
  | 1 => "Gold"
  | 2 => "Silver"
  | _ => "Bronze"

/-- Membership test of tier `i` on a `total_spent` value (lines 271-281):
tier 0 is `spend >= q(0.95)`; tier `i > 0` is
`q(p_i) <= spend < q(p_(i-1))`. -/
def tierPred (txs : List Transaction) (i : ℕ) (x : ℚ) : Bool :=
  if i = 0 then decide (quantileOf (spendList txs) (tierLowerP 0) ≤ x)
  else decide (quantileOf (spendList txs) (tierLowerP i) ≤ x) &&
       decide (x < quantileOf (spendList txs) (tierLowerP (i - 1)))

/-- `segment_customers` for tier `i` (lines 271-281). -/
def tierMembers (txs : List Transaction) (i : ℕ) : List SpendProfile :=
  (profilesOf txs).filter (fun p => tierPred txs i p.total_spent)

/-- Minimum of a list of rationals (junk `0` on `[]`; the pipeline only uses
it on non-empty member lists). -/
def listMin (l : List ℚ) : ℚ :=
  match l with
  | [] => 0
  | x :: xs => xs.foldl min x

/-- Maximum of a list of rationals (junk `0` on `[]`). -/
def listMax (l : List ℚ) : ℚ :=
  match l with
  | [] => 0
  | x :: xs => xs.foldl max x

/-- One entry of `customer_segments` (lines 284-292). -/
structure Segment where
  segment : String
  customer_count : ℕ
  avg_revenue : ℚ
  total_revenue : ℚ
  percentage : ℚ
  min_spend : ℚ
  max_spend : ℚ
deriving DecidableEq, Repr

/-- The dictionary appended for a (non-empty) tier `i` (lines 284-292). -/
def mkSegment (txs : List Transaction) (i : ℕ) : Segment :=
  let members := tierMembers txs i
  let spends := members.map (·.total_spent)
  { segment := tierName i
    customer_count := members.length
    avg_revenue := round2 (listMean spends)
    total_revenue := round2 spends.sum
    percentage := round2 ((members.length : ℚ) / ((profilesOf txs).length : ℚ) * 100)
    min_spend := round2 (listMin spends)
    max_spend := round2 (listMax spends) }

/-- `customer_segments` (lines 266-292): tiers are scanned in order
Platinum, Gold, Silver, Bronze and appended only if non-empty. -/
def customerSegments (txs : List Transaction) : List Segment :=
  (List.range 4).filterMap (fun i =>
    if (tierMembers txs i).length = 0 then none else some (mkSegment txs i))

/-- `high_value_customers` (lines 260-264): profiles with
`total_spent >= quantile(0.8)`, sorted by `total_spent` descending
(pandas `sort_values` is stable). -/
def highValueCustomers (txs : List Transaction) : List SpendProfile :=
  ((profilesOf txs).filter
      (fun p => decide (quantileOf (spendList txs) (8/10) ≤ p.total_spent))).insertionSort
    (fun a b => b.total_spent ≤ a.total_spent)

/-- The `segment_data` payload of `get_high_value_customers` (lines 294-299).
`high_value_threshold` is `none` when there are no profiles (`NaN`). -/
structure HighValueData where
  high_value_threshold : Option ℚ
  total_high_value_customers : ℕ
  customer_segments : List Segment
  top_10_customers : List SpendProfile
deriving DecidableEq, Repr

/-- `get_high_value_customers` (lines 242-309): pure part of the endpoint. -/
def get_high_value_customers (txs : List Transaction) : HighValueData :=
  { high_value_threshold := (quantileOpt (spendList txs) (8/10)).map round2
    total_high_value_customers := (highValueCustomers txs).length
    customer_segments := customerSegments txs
    top_10_customers := (highValueCustomers txs).take 10 }

/-! ## Trend Aggregator (`get_revenue_analytics`, lines 311-370)

The endpoint body runs inside `try: ... except Exception as e:
raise HTTPException(status_code=500, detail=str(e))`.  `fastapi.HTTPException`
derives from `Exception`, so the `HTTPException(400)` raised for an invalid
`period` (line 341) is caught by that handler and re-raised as a 500 whose
detail is `str(e) = "400: <detail>"`.  `revenue_data['revenue'].idxmax()`
(line 357) raises `ValueError` on an empty frame, also surfaced as a 500.
The division `iloc[-1] / iloc[0]` (line 358) is IEEE float division:
dividing by `0.0` yields an infinity (or `NaN` for `0/0`), not an error;
`PyFloat` records that. -/

/-- Value of the float expression computing `revenue_growth`. -/
inductive PyFloat where
  | fin (q : ℚ)
  | inf
  | ninf
  | nan
deriving DecidableEq, Repr

/-- A python exception raised inside the endpoint's `try` block. -/
inductive PyExn where
  | httpExn (status : ℕ) (detail : String)
  | valueError (msg : String)
deriving DecidableEq, Repr

/-- Python `str(e)`: starlette's `HTTPException.__str__` is
`"{status_code}: {detail}"`. -/
def pyStr (e : PyExn) : String :=
  match e with
  | .httpExn s d => toString s ++ ": " ++ d
  | .valueError m => m

/-- The error surfaced to the caller: an `HTTPException` with a status code
and a detail string. -/
structure ApiErr where
  status : ℕ
  detail : String
deriving DecidableEq, Repr

/-- One row of `revenue_data` after `reset_index` (lines 322-344). -/
structure BucketRow where
  key : ℤ
  transactions : ℕ
  revenue : ℚ
  avg_order_value : ℚ
  unique_customers : ℕ
deriving DecidableEq, Repr

/-- Placeholder row used only to give `head?`/`getLast?` a default; the
pipeline reads them only on non-empty row lists. -/
def dummyRow : BucketRow := ⟨0, 0, 0, 0, 0⟩

/-- `revenue_data` for one bucket key function (lines 322-339): one row per
non-empty bucket, keys ascending, aggregates rounded to two decimals by the
`.round(2)` on the aggregated frame. -/
def bucketRows (key : Transaction → ℤ) (txs : List Transaction) : List BucketRow :=
  (sortedKeys (txs.map key)).map (fun k =>
    let g := txs.filter (fun t => key t = k)
    { key := k
      transactions := g.length
      revenue := round2 (amounts g).sum
      avg_order_value := round2 (listMean (amounts g))
      unique_customers := ((g.map (·.customer_id)).dedup).length })

/-- The per-row revenue column. -/
def bucketRevenues (key : Transaction → ℤ) (txs : List Transaction) : List ℚ :=
  (bucketRows key txs).map (·.revenue)

/-- Bucket key function of a `period` string, following the
`if/elif/elif/else` chain of lines 322-341 (`none` = invalid period). -/
def keyFor (period : String) : Option (Transaction → ℤ) :=
  if period = "daily" then some (fun t => dayKey t.transaction_date)
  else if period = "weekly" then some (fun t => weekKey t.transaction_date)
  else if period = "monthly" then some (fun t => monthKey t.transaction_date)
  else none

/-- `revenue_data.loc[revenue_data['revenue'].idxmax()]` (line 357):
`idxmax` returns the first index attaining the maximum. -/
def peakRow (rows : List BucketRow) : BucketRow :=
  rows.foldl (fun best r => if best.revenue < r.revenue then r else best)
    (rows.head?.getD dummyRow)

/-- `revenue_growth` (line 358):
`round(((revenue.iloc[-1] / revenue.iloc[0]) - 1) * 100, 2) if len > 1 else 0`,
with IEEE semantics for division by zero. -/
def growthPct (rows : List BucketRow) : PyFloat :=
  if 1 < rows.length then
    let f := (rows.head?.getD dummyRow).revenue
    let l := (rows.getLast?.getD dummyRow).revenue
    if f ≠ 0 then .fin (round2 ((l / f - 1) * 100))
    else if 0 < l then .inf
    else if l < 0 then .ninf
    else .nan
  else .fin 0

/-- The `analytics_data` payload (lines 349-360). -/
structure RevenueAnalytics where
  period : String
  total_revenue : ℚ
  total_transactions : ℕ
  data_points : ℕ
  revenue_trends : List BucketRow
  avg_daily_revenue : ℚ
  peak_revenue_day : BucketRow
  revenue_growth : PyFloat
deriving DecidableEq, Repr

/-- Body of the `try` block of `get_revenue_analytics` (lines 319-367):
either a payload or the python exception that escapes. -/
def revenueInner (txs : List Transaction) (period : String) :
    Except PyExn RevenueAnalytics :=
  match keyFor period with
  | none => .error (.httpExn 400 "Invalid period. Use: daily, weekly, or monthly")
  | some key =>
      let rows := bucketRows key txs
      if rows.length = 0 then
        .error (.valueError "attempt to get argmax of an empty sequence")
      else
        .ok { period := period
              total_revenue := round2 (amounts txs).sum
              total_transactions := txs.length
              data_points := rows.length
              revenue_trends := rows
              avg_daily_revenue := round2 (listMean (rows.map (·.revenue)))
              peak_revenue_day := peakRow rows
              revenue_growth := growthPct rows }

/-- `get_revenue_analytics` (lines 311-370): the `except Exception` handler
wraps any escaping exception - including the endpoint's own
`HTTPException(400)` - into `HTTPException(500, str(e))`. -/
def get_revenue_analytics (txs : List Transaction) (period : String) :
    Except ApiErr RevenueAnalytics :=
  match revenueInner txs period with
  | .ok r => .ok r
  | .error e => .error ⟨500, pyStr e⟩

/-- The error component of an endpoint outcome, if any. -/
def errOf {α : Type} (e : Except ApiErr α) : Option ApiErr :=
  match e with
  | .ok _ => none
  | .error err => some err

/-- The payload of an endpoint outcome, if any. -/
def okOf {α : Type} (e : Except ApiErr α) : Option α :=
  match e with
  | .ok r => some r
  | .error _ => none

/-! ## Concrete inputs and spec-side definitions used by the claims -/

/-- Two concrete bucket rows with revenues 100 and 150. -/
def witnessRows : List BucketRow := [⟨0, 1, 100, 100, 1⟩, ⟨1, 1, 150, 150, 1⟩]

/-- Per-customer recency classes of §4.1 of the spec. -/
inductive ChurnClass where
  | churned
  | atRisk
  | active
deriving DecidableEq, Repr

/-- Classification of one transacting customer following the words of §4.1,
with the source's hardcoded thresholds: churned iff
`days_since_last > 90`, at risk iff `60 < days_since_last <= 90`,
active otherwise. -/
def specChurnClass (txs : List Transaction) (now : ℤ) (c : ℕ) : ChurnClass :=
  if 90 < days_since_last txs now c then .churned
  else if 60 < days_since_last txs now c then .atRisk
  else .active

/-- Twenty-one transactions: nineteen of amount 0 on day 0, then one of
amount 21 on day 5 and one of amount 21 on day 9.  The mean is 2, the
sample variance 39.9, so both amount-21 rows clear
`mean + 3*std ≈ 20.95` and are anomalous. -/
def anomalyCexTxs : List Transaction :=
  List.replicate 19 ⟨0, 0, 0, 0, "completed"⟩ ++
    [⟨100, 1, 5, 21, "completed"⟩, ⟨101, 2, 9, 21, "completed"⟩]

/-- Mean of `amount` over all transactions as a real number, following the
spec's §4.2 words. -/
noncomputable def specMeanAmount (txs : List Transaction) : ℝ :=
  ((amounts txs).map (fun (q : ℚ) => (q : ℝ))).sum / (txs.length : ℝ)

/-- Sample variance (`ddof=1`) of `amount` as a real number, following the
spec's §4.2 words. -/
noncomputable def specVarAmount (txs : List Transaction) : ℝ :=
  ((amounts txs).map (fun (q : ℚ) => ((q : ℝ) - specMeanAmount txs) ^ 2)).sum /
    ((txs.length : ℝ) - 1)

/-- The spec's §4.2 amount-anomaly threshold
`mean + 3 * sample standard deviation`. -/
noncomputable def specAmountThreshold (txs : List Transaction) : ℝ :=
  specMeanAmount txs + 3 * Real.sqrt (specVarAmount txs)

/-- The single large transaction of the spec's anomaly scenario. -/
def bigTx : Transaction := ⟨100, 1, 0, 10000, "completed"⟩

/-- The spec's anomaly scenario: 99 transactions of amount 10 and one of
amount 10000. -/
def scenario99 : List Transaction :=
  List.replicate 99 ⟨1, 1, 0, 10, "completed"⟩ ++ [bigTx]

/-- Interpolation index `floor(p * (n - 1))` used by `quantileSorted`. -/
def qIdx (s : List ℚ) (p : ℚ) : ℕ :=
  (Int.floor (p * ((s.length : ℚ) - 1))).toNat

/-! ## Sanity checks: concrete evaluations of the embedded endpoints -/

example :
    get_churn_metrics [⟨1, 0⟩] [⟨1, 1, 990, 100, "completed"⟩] 1000 =
      ⟨0, 0, 0, 1, 1, 90⟩ := by decide

example :
    (get_churn_metrics [⟨1, 0⟩]
      [⟨1, 2, 900, 5, "completed"⟩, ⟨2, 3, 900, 5, "completed"⟩,
       ⟨3, 1, 930, 5, "completed"⟩] 1000).churn_rate = 200 := by decide

example : get_anomaly_metrics [] = ⟨0, none, 0, 0, [], 0, none⟩ := by decide

example : get_high_value_customers [] = ⟨none, 0, [], []⟩ := by decide

example :
    (customerSegments [⟨1, 1, 0, 100, "completed"⟩]).map (·.segment) =
      ["Platinum"] := by decide

example :
    errOf (get_revenue_analytics [] "daily") =
      some ⟨500, "attempt to get argmax of an empty sequence"⟩ := by decide

example :
    errOf (get_revenue_analytics [⟨1, 1, 0, 5, "completed"⟩] "bogus") =
      some ⟨500, "400: Invalid period. Use: daily, weekly, or monthly"⟩ := by decide

example :
    (okOf (get_revenue_analytics
      [⟨1, 1, 0, 100, "completed"⟩, ⟨2, 1, 40, 150, "completed"⟩]
      "monthly")).map (·.revenue_growth) = some (.fin 50) := by decide

example :
    (okOf (get_revenue_analytics
      [⟨1, 1, 0, 0, "completed"⟩, ⟨2, 1, 40, 150, "completed"⟩]
      "monthly")).map (·.revenue_growth) = some .inf := by decide

/-! ## General-purpose lemmas -/

theorem pyRound_intCast (z : ℤ) : pyRound (z : ℚ) = z := by
  unfold pyRound
  simp

theorem pyRound_le (q : ℚ) : (pyRound q : ℚ) ≤ q + 1/2 := by
  unfold pyRound
  have h1 : (⌊q⌋ : ℚ) ≤ q := Int.floor_le q
  have h2 : q < ⌊q⌋ + 1 := Int.lt_floor_add_one q
  split_ifs <;> push_cast <;> linarith

theorem le_pyRound (q : ℚ) : q - 1/2 ≤ (pyRound q : ℚ) := by
  unfold pyRound
  have h1 : (⌊q⌋ : ℚ) ≤ q := Int.floor_le q
  have h2 : q < ⌊q⌋ + 1 := Int.lt_floor_add_one q
  split_ifs <;> push_cast <;> linarith

theorem round2_cents (q : ℚ) : isCents (round2 q) := ⟨pyRound (q * 100), rfl⟩

theorem round2_eq_self_of_cents {q : ℚ} (h : isCents q) : round2 q = q := by
  obtain ⟨z, rfl⟩ := h
  have hz : (z : ℚ) / 100 * 100 = (z : ℚ) := by field_simp
  rw [round2, hz, pyRound_intCast]

theorem isCents_add {a b : ℚ} (ha : isCents a) (hb : isCents b) :
    isCents (a + b) := by
  obtain ⟨x, rfl⟩ := ha
  obtain ⟨y, rfl⟩ := hb
  exact ⟨x + y, by push_cast; ring⟩

theorem isCents_zero : isCents 0 := ⟨0, by norm_num⟩

theorem isCents_sum {l : List ℚ} (h : ∀ q ∈ l, isCents q) : isCents l.sum := by
  induction l with
  | nil => simpa using isCents_zero
  | cons x xs ih =>
      simp only [List.sum_cons]
      exact isCents_add (h x (by simp)) (ih fun q hq => h q (by simp [hq]))

theorem round2_zero : round2 0 = 0 := round2_eq_self_of_cents ⟨0, by norm_num⟩

theorem round2_nonneg {q : ℚ} (h : 0 ≤ q) : 0 ≤ round2 q := by
  have hb := le_pyRound (q * 100)
  have : (-1 : ℚ)/2 ≤ (pyRound (q * 100) : ℚ) := by nlinarith
  have hz : (0 : ℤ) ≤ pyRound (q * 100) := by
    by_contra hneg
    push_neg at hneg
    have : (pyRound (q * 100) : ℚ) ≤ -1 := by exact_mod_cast Int.le_sub_one_of_lt hneg
    linarith
  rw [round2]
  have : (0 : ℚ) ≤ (pyRound (q * 100) : ℚ) := by exact_mod_cast hz
  positivity

theorem sortedKeys_nodup {α : Type} [LinearOrder α] [DecidableEq α]
    (l : List α) : (sortedKeys l).Nodup :=
  (List.perm_insertionSort (· ≤ ·) l.dedup).nodup_iff.mpr (List.nodup_dedup l)

theorem mem_sortedKeys {α : Type} [LinearOrder α] [DecidableEq α]
    {l : List α} {x : α} : x ∈ sortedKeys l ↔ x ∈ l := by
  unfold sortedKeys
  rw [(List.perm_insertionSort (· ≤ ·) l.dedup).mem_iff, List.mem_dedup]

theorem sortedKeys_length_eq {α : Type} [LinearOrder α] [DecidableEq α]
    (l : List α) : (sortedKeys l).length = l.dedup.length :=
  (List.perm_insertionSort (· ≤ ·) l.dedup).length_eq

theorem sortedKeys_sorted {α : Type} [LinearOrder α] [DecidableEq α]
    (l : List α) : (sortedKeys l).Sorted (· ≤ ·) :=
  List.sorted_insertionSort (· ≤ ·) l.dedup

theorem round2_le_of_le {q b : ℚ} (hb : isCents b) (h : q ≤ b) :
    round2 q ≤ b := by
  obtain ⟨y, rfl⟩ := hb
  have h1 : (pyRound (q * 100) : ℚ) ≤ q * 100 + 1/2 := pyRound_le _
  have h2 : q * 100 ≤ (y : ℚ) := by
    have := mul_le_mul_of_nonneg_right h (by norm_num : (0:ℚ) ≤ 100)
    calc q * 100 ≤ (y : ℚ) / 100 * 100 := this
    _ = (y : ℚ) := by field_simp
  have h3 : (pyRound (q * 100) : ℚ) < (y : ℚ) + 1 := by linarith
  have h4 : pyRound (q * 100) ≤ y := by
    have : pyRound (q * 100) < y + 1 := by exact_mod_cast h3
    omega
  rw [round2]
  have h5 : (pyRound (q * 100) : ℚ) ≤ (y : ℚ) := by exact_mod_cast h4
  linarith

theorem length_le_of_nodup_subset {α : Type} [DecidableEq α]
    {l₁ l₂ : List α} (hnd : l₁.Nodup) (hsub : l₁ ⊆ l₂) :
    l₁.length ≤ l₂.length := by
  have hfs : l₁.toFinset ⊆ l₂.toFinset := by
    intro x hx
    rw [List.mem_toFinset] at hx ⊢
    exact hsub hx
  calc l₁.length = l₁.toFinset.card := (List.toFinset_card_of_nodup hnd).symm
  _ ≤ l₂.toFinset.card := Finset.card_le_card hfs
  _ ≤ l₂.length := l₂.toFinset_card_le

/-! ## Claim C1 -/

/-- Claim C1 is FALSE as stated: on an empty Transactions collection the
revenue-analytics analyzer does not return zero-valued aggregates - it
fails with a generic 500 error, because `revenue_data['revenue'].idxmax()`
raises `ValueError` on the empty bucket frame. -/
theorem revenue_analytics_empty_errors_cex :
    errOf (get_revenue_analytics [] "daily") =
      some ⟨500, "attempt to get argmax of an empty sequence"⟩ := by decide

/-- Claim C1, amended: with a successfully loaded Data Source and an empty
Transactions collection, the churn, anomaly and high-value-segmentation
analyzers return without error, with zero counts and rates, empty lists and
`NaN` (`none`) statistics (churn's `active_customers` equals
`total_customers`); the revenue-analytics analyzer instead fails with a
generic 500 error for every valid period selector. -/
theorem empty_transactions_behavior :
    (∀ (customers : List Customer) (now : ℤ),
        get_churn_metrics customers [] now =
          ⟨0, 0, 0, customers.length, (customers.length : ℤ), 90⟩) ∧
    get_anomaly_metrics [] = ⟨0, none, 0, 0, [], 0, none⟩ ∧
    get_high_value_customers [] = ⟨none, 0, [], []⟩ ∧
    errOf (get_revenue_analytics [] "daily") =
      some ⟨500, "attempt to get argmax of an empty sequence"⟩ ∧
    errOf (get_revenue_analytics [] "weekly") =
      some ⟨500, "attempt to get argmax of an empty sequence"⟩ ∧
    errOf (get_revenue_analytics [] "monthly") =
      some ⟨500, "attempt to get argmax of an empty sequence"⟩ := by
  refine ⟨?_, by decide, by decide, by decide, by decide, by decide⟩
  intro customers now
  have hchurn : churnedCount [] now = 0 := rfl
  have hrisk : atRiskCount [] now = 0 := rfl
  simp only [get_churn_metrics, hchurn, hrisk, Nat.cast_zero, CharP.cast_eq_zero,
    zero_div, zero_mul, round2_zero, ite_self, sub_zero]

/-! ## Claim C4 -/

/-- Claim C4 (code bug): for a period selector outside
{daily, weekly, monthly} the endpoint body does raise
`HTTPException(400, ...)` before any computation, but its own blanket
`except Exception` handler catches that exception and re-raises it as a
generic 500, so the caller observes a ComputationError-style failure, not a
distinct InvalidParameter error. -/
theorem invalid_period_wrapped_500 (txs : List Transaction) (period : String)
    (h : period ∉ (["daily", "weekly", "monthly"] : List String)) :
    revenueInner txs period =
      .error (.httpExn 400 "Invalid period. Use: daily, weekly, or monthly") ∧
    get_revenue_analytics txs period =
      .error ⟨500, "400: Invalid period. Use: daily, weekly, or monthly"⟩ := by
  have h1 : period ≠ "daily" := fun e => h (by simp [e])
  have h2 : period ≠ "weekly" := fun e => h (by simp [e])
  have h3 : period ≠ "monthly" := fun e => h (by simp [e])
  have hk : keyFor period = none := by simp [keyFor, h1, h2, h3]
  constructor
  · simp [revenueInner, hk]
  · simp [get_revenue_analytics, revenueInner, hk, pyStr]
    decide

/-- Witness for C4 at the concrete failing input `period="invalid"`. -/
theorem invalid_period_wrapped_500_witness :
    get_revenue_analytics [] "invalid" =
      .error ⟨500, "400: Invalid period. Use: daily, weekly, or monthly"⟩ :=
  (invalid_period_wrapped_500 [] "invalid" (by decide)).2

/-! ## Claim C5 -/

/-- Claim C5 is FALSE as stated: when the first bucket's revenue is 0 the
division is NOT guarded - the result is a successful payload whose
`revenue_growth` is IEEE infinity, not a flagged error. -/
theorem growth_div_zero_inf_cex :
    (okOf (get_revenue_analytics
      [⟨1, 1, 0, 0, "completed"⟩, ⟨2, 1, 40, 150, "completed"⟩]
      "monthly")).map (·.revenue_growth) = some PyFloat.inf := by decide

/-- Claim C5, amended: `revenue_growth` is
`round((last_bucket.revenue / first_bucket.revenue - 1) * 100, 2)` (the
source rounds the percentage to two decimals) when at least two buckets
exist and the first bucket's revenue is nonzero; it is 0 when fewer than
two buckets exist; and when the first bucket's revenue is 0 the division is
unguarded IEEE float division, giving +infinity / -infinity / NaN according
to the sign of the last bucket's revenue, inside an otherwise successful
result.  For monthly data spanning exactly two months with revenues 100 and
150, the growth is 50. -/
theorem revenue_growth_amended :
    (∀ rows : List BucketRow,
        rows.length ≤ 1 → growthPct rows = .fin 0) ∧
    (∀ rows : List BucketRow,
        2 ≤ rows.length →
        (rows.head?.getD dummyRow).revenue ≠ 0 →
        growthPct rows =
          .fin (round2 (((rows.getLast?.getD dummyRow).revenue /
            (rows.head?.getD dummyRow).revenue - 1) * 100))) ∧
    (∀ rows : List BucketRow,
        2 ≤ rows.length →
        (rows.head?.getD dummyRow).revenue = 0 →
        growthPct rows =
          (if 0 < (rows.getLast?.getD dummyRow).revenue then PyFloat.inf
           else if (rows.getLast?.getD dummyRow).revenue < 0 then PyFloat.ninf
           else PyFloat.nan)) ∧
    (okOf (get_revenue_analytics
      [⟨1, 1, 0, 100, "completed"⟩, ⟨2, 1, 40, 150, "completed"⟩]
      "monthly")).map (·.revenue_growth) = some (.fin 50) := by
  refine ⟨?_, ?_, ?_, by decide⟩
  · intro rows hlen
    have : ¬ 1 < rows.length := by omega
    simp [growthPct, this]
  · intro rows hlen hf
    have h1 : 1 < rows.length := by omega
    simp [growthPct, h1, hf]
  · intro rows hlen hf
    have h1 : 1 < rows.length := by omega
    simp [growthPct, h1, hf]

/-- Witness for C5 at two concrete bucket rows with revenues 100 and 150. -/
theorem revenue_growth_amended_witness :
    growthPct witnessRows =
      .fin (round2 (((witnessRows.getLast?.getD dummyRow).revenue /
        (witnessRows.head?.getD dummyRow).revenue - 1) * 100)) :=
  revenue_growth_amended.2.1 witnessRows (by decide) (by decide)

/-! ## Claim C8 -/

/-- Claim C8: the reported churned / at-risk counts are exactly the numbers
of distinct transacting customers whose §4.1 class is churned resp. at
risk; customers with zero transactions are excluded from that partition but
counted in `total_customers`, which is the size of the Customer collection
(appending a transaction-less customer changes only the total); and the
single-customer scenario with one transaction 10 days old gives
churned=0, at_risk=0, active=1, churn_rate=0. -/
theorem churn_classification_correct :
    (∀ (cs : List Customer) (txs : List Transaction) (now : ℤ),
        (get_churn_metrics cs txs now).churned_customers =
          (txCustomers txs).countP
            (fun c => specChurnClass txs now c == ChurnClass.churned) ∧
        (get_churn_metrics cs txs now).at_risk_customers =
          (txCustomers txs).countP
            (fun c => specChurnClass txs now c == ChurnClass.atRisk) ∧
        (get_churn_metrics cs txs now).total_customers = cs.length) ∧
    (∀ (cs : List Customer) (c₀ : Customer) (txs : List Transaction) (now : ℤ),
        (get_churn_metrics (cs ++ [c₀]) txs now).churned_customers =
          (get_churn_metrics cs txs now).churned_customers ∧
        (get_churn_metrics (cs ++ [c₀]) txs now).at_risk_customers =
          (get_churn_metrics cs txs now).at_risk_customers ∧
        (get_churn_metrics (cs ++ [c₀]) txs now).total_customers =
          (get_churn_metrics cs txs now).total_customers + 1) ∧
    get_churn_metrics [⟨1, 0⟩] [⟨1, 1, 990, 100, "completed"⟩] 1000 =
      ⟨0, 0, 0, 1, 1, 90⟩ := by
  refine ⟨?_, ?_, by decide⟩
  · intro cs txs now
    refine ⟨?_, ?_, rfl⟩
    · show churnedCount txs now = _
      unfold churnedCount
      refine List.countP_congr ?_
      intro c _
      unfold specChurnClass
      by_cases h1 : 90 < days_since_last txs now c
      · simp [h1]
      · by_cases h2 : 60 < days_since_last txs now c <;> simp [h1, h2]
    · show atRiskCount txs now = _
      unfold atRiskCount
      refine List.countP_congr ?_
      intro c _
      unfold specChurnClass
      by_cases h1 : 90 < days_since_last txs now c
      · have h3 : ¬ days_since_last txs now c ≤ 90 := by omega
        simp [h1, h3]
      · have h3 : days_since_last txs now c ≤ 90 := by omega
        by_cases h2 : 60 < days_since_last txs now c <;> simp [h1, h2, h3]
  · intro cs c₀ txs now
    refine ⟨rfl, rfl, ?_⟩
    show (cs ++ [c₀]).length = cs.length + 1
    simp

/-! ## Claim C2 -/

/-- Claim C2 is FALSE as stated: with one customer, an at-risk own
transaction and two orphan churned customer ids, `churn_rate` is 200 and
`active + at_risk + churned = 2 > 1 = total`. -/
theorem churn_invariant_cex :
    ¬ ((get_churn_metrics [⟨1, 0⟩]
        [⟨1, 2, 900, 5, "completed"⟩, ⟨2, 3, 900, 5, "completed"⟩,
         ⟨3, 1, 930, 5, "completed"⟩] 1000).churn_rate ≤ 100) ∧
    ¬ ((get_churn_metrics [⟨1, 0⟩]
        [⟨1, 2, 900, 5, "completed"⟩, ⟨2, 3, 900, 5, "completed"⟩,
         ⟨3, 1, 930, 5, "completed"⟩] 1000).active_customers +
       ((get_churn_metrics [⟨1, 0⟩]
        [⟨1, 2, 900, 5, "completed"⟩, ⟨2, 3, 900, 5, "completed"⟩,
         ⟨3, 1, 930, 5, "completed"⟩] 1000).at_risk_customers : ℤ) +
       ((get_churn_metrics [⟨1, 0⟩]
        [⟨1, 2, 900, 5, "completed"⟩, ⟨2, 3, 900, 5, "completed"⟩,
         ⟨3, 1, 930, 5, "completed"⟩] 1000).churned_customers : ℤ) ≤
       ((get_churn_metrics [⟨1, 0⟩]
        [⟨1, 2, 900, 5, "completed"⟩, ⟨2, 3, 900, 5, "completed"⟩,
         ⟨3, 1, 930, 5, "completed"⟩] 1000).total_customers : ℤ)) := by
  constructor <;> decide

/-- Claim C2, amended: `churn_rate` is always nonnegative, and is at most
100 whenever every transaction's `customer_id` appears in the Customer
collection (without that referential integrity, orphan ids can push it
above 100); and the reported counts always satisfy the identity
`active + at_risk + churned = total + at_risk` (the source sets
`active = total - churned`), so the claimed inequality
`active + at_risk + churned <= total` holds exactly when `at_risk = 0`,
not when every customer has a transaction. -/
theorem churn_rate_bounds_amended :
    ∀ (cs : List Customer) (txs : List Transaction) (now : ℤ),
      0 ≤ (get_churn_metrics cs txs now).churn_rate ∧
      (get_churn_metrics cs txs now).active_customers +
        ((get_churn_metrics cs txs now).at_risk_customers : ℤ) +
        ((get_churn_metrics cs txs now).churned_customers : ℤ) =
        ((get_churn_metrics cs txs now).total_customers : ℤ) +
        ((get_churn_metrics cs txs now).at_risk_customers : ℤ) ∧
      ((∀ t ∈ txs, t.customer_id ∈ cs.map (·.customer_id)) →
        (get_churn_metrics cs txs now).churn_rate ≤ 100) := by
  intro cs txs now
  refine ⟨?_, ?_, ?_⟩
  · show 0 ≤ (if 0 < cs.length then
      round2 ((churnedCount txs now : ℚ) / (cs.length : ℚ) * 100) else 0)
    split_ifs with h
    · exact round2_nonneg (by positivity)
    · exact le_refl 0
  · show ((cs.length : ℤ) - (churnedCount txs now : ℤ)) +
      (atRiskCount txs now : ℤ) + (churnedCount txs now : ℤ) =
      (cs.length : ℤ) + (atRiskCount txs now : ℤ)
    ring
  · intro href
    show (if 0 < cs.length then
      round2 ((churnedCount txs now : ℚ) / (cs.length : ℚ) * 100) else 0) ≤ 100
    split_ifs with h
    · have hsub : txCustomers txs ⊆ cs.map (·.customer_id) := by
        intro x hx
        have hx3 : x ∈ txs.map (·.customer_id) := mem_sortedKeys.mp hx
        obtain ⟨t, ht, rfl⟩ := List.mem_map.mp hx3
        exact href t ht
      have hnd : (txCustomers txs).Nodup := sortedKeys_nodup _
      have hlen : (txCustomers txs).length ≤ (cs.map (·.customer_id)).length :=
        length_le_of_nodup_subset hnd hsub
      have hcount : churnedCount txs now ≤ cs.length := by
        calc churnedCount txs now ≤ (txCustomers txs).length :=
          List.countP_le_length _
        _ ≤ (cs.map (·.customer_id)).length := hlen
        _ = cs.length := List.length_map _ _
      have hq : (churnedCount txs now : ℚ) / (cs.length : ℚ) * 100 ≤ 100 := by
        have hc : (churnedCount txs now : ℚ) ≤ (cs.length : ℚ) := by
          exact_mod_cast hcount
        have hpos : (0 : ℚ) < (cs.length : ℚ) := by exact_mod_cast h
        have : (churnedCount txs now : ℚ) / (cs.length : ℚ) ≤ 1 :=
          (div_le_one hpos).mpr hc
        nlinarith
      exact round2_le_of_le (by decide) hq
    · norm_num

/-- Witness for C2 at a concrete referentially-intact input. -/
theorem churn_rate_bounds_amended_witness :
    (get_churn_metrics [⟨1, 0⟩] [⟨1, 1, 990, 100, "completed"⟩]
      1000).churn_rate ≤ 100 :=
  (churn_rate_bounds_amended [⟨1, 0⟩] [⟨1, 1, 990, 100, "completed"⟩]
    1000).2.2 (by decide)

/-! ## Claim C3: partition-sum lemmas -/

theorem sum_map_ite_zero {β : Type} [DecidableEq β] (c : ℚ) (b : β) :
    ∀ (ks : List β), ks.Nodup → b ∈ ks →
      (ks.map (fun k => if b = k then c else 0)).sum = c := by
  intro ks
  induction ks with
  | nil => intro _ hb; cases hb
  | cons k ks ih =>
      intro hnd hb
      simp only [List.map_cons, List.sum_cons]
      by_cases hbk : b = k
      · subst hbk
        have hnotmem : b ∉ ks := (List.nodup_cons.mp hnd).1
        have hz : (ks.map (fun k => if b = k then c else 0)).sum = 0 := by
          rw [List.sum_eq_zero]
          intro x hx
          obtain ⟨k', hk', rfl⟩ := List.mem_map.mp hx
          have : b ≠ k' := fun e => hnotmem (e ▸ hk')
          simp [this]
        simp [hz]
      · have hb' : b ∈ ks := by
          rcases List.mem_cons.mp hb with h | h
          · exact absurd h hbk
          · exact h
        rw [ih (List.nodup_cons.mp hnd).2 hb']
        simp [hbk]

theorem sum_map_add_distrib {β : Type} (f g : β → ℚ) :
    ∀ ks : List β,
      (ks.map (fun k => f k + g k)).sum = (ks.map f).sum + (ks.map g).sum := by
  intro ks
  induction ks with
  | nil => simp
  | cons k ks ih =>
      simp only [List.map_cons, List.sum_cons, ih]
      ring

theorem sum_buckets_eq {α : Type} (amt : α → ℚ) (key : α → ℤ) :
    ∀ (txs : List α) (ks : List ℤ), ks.Nodup → (∀ t ∈ txs, key t ∈ ks) →
      (ks.map (fun k => ((txs.filter (fun t => key t = k)).map amt).sum)).sum
        = (txs.map amt).sum := by
  intro txs
  induction txs with
  | nil => intro ks _ _; simp
  | cons t ts ih =>
      intro ks hnd hmem
      have hrow : ∀ k, ((t :: ts).filter (fun x => key x = k)).map amt =
          (if key t = k then [amt t] else []) ++
            ((ts.filter (fun x => key x = k)).map amt) := by
        intro k
        by_cases hk : key t = k <;> simp [List.filter_cons, hk]
      have hmap : (ks.map (fun k =>
          (((t :: ts).filter (fun x => key x = k)).map amt).sum)) =
          ks.map (fun k => (if key t = k then amt t else 0) +
            ((ts.filter (fun x => key x = k)).map amt).sum) := by
        refine List.map_congr_left ?_
        intro k _
        rw [hrow k]
        by_cases hk : key t = k <;> simp [hk]
      rw [hmap]
      rw [sum_map_add_distrib (fun k => if key t = k then amt t else 0)
            (fun k => ((ts.filter (fun x => key x = k)).map amt).sum) ks,
        sum_map_ite_zero (amt t) (key t) ks hnd (hmem t (by simp)),
        ih ks hnd (fun x hx => hmem x (by simp [hx]))]
      simp

theorem bucketRevenues_eq_map (key : Transaction → ℤ) (txs : List Transaction) :
    bucketRevenues key txs =
      (sortedKeys (txs.map key)).map
        (fun k => round2 ((amounts (txs.filter (fun t => key t = k))).sum)) := by
  unfold bucketRevenues bucketRows
  rw [List.map_map]
  rfl

theorem bucketRevenues_sum (key : Transaction → ℤ) (txs : List Transaction)
    (hcents : ∀ t ∈ txs, isCents t.amount) :
    (bucketRevenues key txs).sum = (txs.map (·.amount)).sum := by
  rw [bucketRevenues_eq_map]
  have hdrop : (sortedKeys (txs.map key)).map
      (fun k => round2 ((amounts (txs.filter (fun t => key t = k))).sum)) =
      (sortedKeys (txs.map key)).map
        (fun k => ((txs.filter (fun t => key t = k)).map (·.amount)).sum) := by
    refine List.map_congr_left ?_
    intro k _
    refine round2_eq_self_of_cents (isCents_sum ?_)
    intro q hq
    obtain ⟨t, ht, rfl⟩ := List.mem_map.mp hq
    exact hcents t (List.mem_of_mem_filter ht)
  rw [hdrop]
  exact sum_buckets_eq (·.amount) key txs (sortedKeys (txs.map key))
    (sortedKeys_nodup _)
    (fun t ht => mem_sortedKeys.mpr (List.mem_map.mpr ⟨t, ht, rfl⟩))

/-- Claim C3 is FALSE as stated: the source rounds each bucket's revenue to
two decimals (`.round(2)` on the aggregated frame), so for amounts with
more than two decimal places (here 0.004 on two different days) the sum of
the emitted `revenue` values (0) differs from the sum of the amounts
(0.008). -/
theorem bucket_sum_rounding_cex :
    (bucketRevenues (fun t => dayKey t.transaction_date)
      [⟨1, 1, 0, 1/250, "completed"⟩, ⟨2, 1, 1, 1/250, "completed"⟩]).sum ≠
    (([⟨1, 1, 0, 1/250, "completed"⟩, ⟨2, 1, 1, 1/250, "completed"⟩] :
      List Transaction).map (·.amount)).sum := by decide

/-- Claim C3, amended: for every non-empty Transactions collection whose
amounts are whole numbers of hundredths (two-decimal currency, as all the
platform's generated data is) and every valid period selector, the sum of
the emitted bucket revenues equals the sum of all transaction amounts,
and both equal the reported `total_revenue`; for amounts with more than
two decimals the per-bucket rounding can break the equality. -/
theorem bucket_revenue_sum_amended :
    ∀ (txs : List Transaction) (period : String) (key : Transaction → ℤ),
      keyFor period = some key →
      txs ≠ [] →
      (∀ t ∈ txs, isCents t.amount) →
      (bucketRevenues key txs).sum = (txs.map (·.amount)).sum ∧
      (get_revenue_analytics txs period).map
          (fun r => ((r.revenue_trends.map (·.revenue)).sum, r.total_revenue)) =
        Except.ok ((txs.map (·.amount)).sum, (txs.map (·.amount)).sum) := by
  intro txs period key hkey hne hcents
  have hmain : (bucketRevenues key txs).sum = (txs.map (·.amount)).sum :=
    bucketRevenues_sum key txs hcents
  refine ⟨hmain, ?_⟩
  have hrows : ¬ (bucketRows key txs).length = 0 := by
    cases txs with
    | nil => exact absurd rfl hne
    | cons t ts =>
        have hk : key t ∈ sortedKeys ((t :: ts).map key) :=
          mem_sortedKeys.mpr (List.mem_map.mpr ⟨t, by simp, rfl⟩)
        have : sortedKeys ((t :: ts).map key) ≠ [] :=
          List.ne_nil_of_mem hk
        unfold bucketRows
        simpa [List.length_eq_zero] using this
  have htot : round2 (amounts txs).sum = (txs.map (·.amount)).sum := by
    refine round2_eq_self_of_cents (isCents_sum ?_)
    intro q hq
    obtain ⟨t, ht, rfl⟩ := List.mem_map.mp hq
    exact hcents t ht
  unfold get_revenue_analytics revenueInner
  rw [hkey]
  simp only [hrows, if_false, ite_false, if_neg hrows, Except.map]
  refine congrArg Except.ok ?_
  refine Prod.ext ?_ ?_
  · exact hmain
  · exact htot

/-- Witness for C3 at a one-transaction, cents-amount input. -/
theorem bucket_revenue_sum_amended_witness :
    (bucketRevenues (fun t => dayKey t.transaction_date)
      [⟨1, 1, 0, 4, "completed"⟩]).sum =
      (([⟨1, 1, 0, 4, "completed"⟩] : List Transaction).map (·.amount)).sum :=
  (bucket_revenue_sum_amended [⟨1, 1, 0, 4, "completed"⟩] "daily"
    (fun t => dayKey t.transaction_date) rfl (by decide) (by decide)).1

/-! ## Claim C6 -/

/-- Claim C6 is FALSE as stated: `anomalous_transactions.tail(10)` keeps the
trailing anomalous rows in DataFrame row order, not sorted by
`transaction_date` descending - here the two anomalous transactions are
reported with dates `[5, 9]`, which is not a descending order. -/
theorem recent_anomalies_order_cex :
    ((get_anomaly_metrics anomalyCexTxs).recent_anomalies.map
      (·.transaction_date)) = [5, 9] ∧
    ¬ ((get_anomaly_metrics anomalyCexTxs).recent_anomalies.map
      (·.transaction_date)).Pairwise (fun a b => b ≤ a) := by
  constructor <;> decide

/-- Claim C6, amended: `recent_anomalies` is the last `min(10, k)` of the
`k` amount-anomalous transactions in collection (row) order, each carrying
transaction_id, customer_id, amount and date; when the collection is sorted
ascending by `transaction_date` these are the 10 most recent anomalous
transactions, but reported in ascending date order, not descending. -/
theorem recent_anomalies_amended :
    ∀ txs : List Transaction,
      (get_anomaly_metrics txs).recent_anomalies =
        ((anomalousTxs txs).drop ((anomalousTxs txs).length - 10)).map recentOf ∧
      (get_anomaly_metrics txs).recent_anomalies.length =
        min 10 (anomalousTxs txs).length ∧
      (txs.Pairwise (fun a b => a.transaction_date ≤ b.transaction_date) →
        (get_anomaly_metrics txs).recent_anomalies.Pairwise
          (fun a b => a.transaction_date ≤ b.transaction_date) ∧
        ∀ a ∈ (anomalousTxs txs).take ((anomalousTxs txs).length - 10),
          ∀ r ∈ (get_anomaly_metrics txs).recent_anomalies,
            a.transaction_date ≤ r.transaction_date) := by
  intro txs
  refine ⟨rfl, ?_, ?_⟩
  · show (((anomalousTxs txs).drop ((anomalousTxs txs).length - 10)).map
      recentOf).length = _
    rw [List.length_map, List.length_drop]
    omega
  · intro hsorted
    have hanom : (anomalousTxs txs).Pairwise
        (fun a b => a.transaction_date ≤ b.transaction_date) :=
      hsorted.filter _
    have hsplit := List.take_append_drop
      ((anomalousTxs txs).length - 10) (anomalousTxs txs)
    have happ : ((anomalousTxs txs).take ((anomalousTxs txs).length - 10) ++
        (anomalousTxs txs).drop ((anomalousTxs txs).length - 10)).Pairwise
        (fun a b => a.transaction_date ≤ b.transaction_date) := by
      rw [hsplit]; exact hanom
    rw [List.pairwise_append] at happ
    constructor
    · show (((anomalousTxs txs).drop ((anomalousTxs txs).length - 10)).map
        recentOf).Pairwise _
      rw [List.pairwise_map]
      exact happ.2.1
    · intro a ha r hr
      show a.transaction_date ≤ r.transaction_date
      obtain ⟨b, hb, rfl⟩ := List.mem_map.mp hr
      exact happ.2.2 a ha b hb

/-- Witness for C6 at a date-sorted concrete input. -/
theorem recent_anomalies_amended_witness :
    (get_anomaly_metrics anomalyCexTxs).recent_anomalies.Pairwise
      (fun a b => a.transaction_date ≤ b.transaction_date) :=
  ((recent_anomalies_amended anomalyCexTxs).2.2 (by decide)).1

/-! ## Claim C9 -/

theorem ratCast_list_sum (l : List ℚ) :
    ((l.sum : ℚ) : ℝ) = (l.map (fun (q : ℚ) => (q : ℝ))).sum := by
  induction l with
  | nil => simp
  | cons x xs ih => simp [ih]

theorem listMean_cast (txs : List Transaction) :
    ((listMean (amounts txs) : ℚ) : ℝ) = specMeanAmount txs := by
  unfold listMean specMeanAmount
  rw [Rat.cast_div, ratCast_list_sum]
  have hlen : (amounts txs).length = txs.length := List.length_map _ _
  rw [hlen]
  push_cast
  ring

theorem ratCast_sum_sq (l : List ℚ) (m : ℚ) :
    (((l.map (fun x => (x - m) ^ 2)).sum : ℚ) : ℝ) =
      (l.map (fun (x : ℚ) => ((x : ℝ) - (m : ℝ)) ^ 2)).sum := by
  induction l with
  | nil => simp
  | cons x xs ih =>
      simp only [List.map_cons, List.sum_cons, Rat.cast_add]
      rw [ih]
      have hx : (((x - m) ^ 2 : ℚ) : ℝ) = ((x : ℝ) - (m : ℝ)) ^ 2 := by
        push_cast
        ring
      rw [hx]

theorem sampleVar_cast (txs : List Transaction) :
    ((sampleVar (amounts txs) : ℚ) : ℝ) = specVarAmount txs := by
  unfold sampleVar specVarAmount
  rw [Rat.cast_div, ratCast_sum_sq (amounts txs) (listMean (amounts txs))]
  have hmap : ((amounts txs).map
      (fun (x : ℚ) => ((x : ℝ) - ((listMean (amounts txs) : ℚ) : ℝ)) ^ 2)) =
      (amounts txs).map (fun (q : ℚ) => ((q : ℝ) - specMeanAmount txs) ^ 2) := by
    rw [listMean_cast]
  rw [hmap]
  have hlen : (amounts txs).length = txs.length := List.length_map _ _
  rw [hlen]
  push_cast
  ring

theorem specVarAmount_nonneg (txs : List Transaction) (h : 2 ≤ txs.length) :
    0 ≤ specVarAmount txs := by
  unfold specVarAmount
  have hnum : (0 : ℝ) ≤
      ((amounts txs).map (fun (q : ℚ) => ((q : ℝ) - specMeanAmount txs) ^ 2)).sum := by
    refine List.sum_nonneg ?_
    intro x hx
    obtain ⟨q, _, rfl⟩ := List.mem_map.mp hx
    positivity
  have hden : (0 : ℝ) < (txs.length : ℝ) - 1 := by
    have : (2 : ℝ) ≤ (txs.length : ℝ) := by exact_mod_cast h
    linarith
  exact div_nonneg hnum (le_of_lt hden)

theorem gt_mean_add_three_sqrt_iff {m v a : ℝ} (hv : 0 ≤ v) :
    m + 3 * Real.sqrt v < a ↔ (m < a ∧ 9 * v < (a - m) ^ 2) := by
  have hsq : 0 ≤ Real.sqrt v := Real.sqrt_nonneg v
  constructor
  · intro h
    have hma : m < a := by linarith
    refine ⟨hma, ?_⟩
    have h3 : 3 * Real.sqrt v < a - m := by linarith
    have h9 : (3 * Real.sqrt v) ^ 2 < (a - m) ^ 2 :=
      pow_lt_pow_left₀ h3 (by positivity) (by norm_num)
    calc 9 * v = (3 * Real.sqrt v) ^ 2 := by
          rw [mul_pow, Real.sq_sqrt hv]; norm_num
    _ < (a - m) ^ 2 := h9
  · rintro ⟨hma, hsq2⟩
    have hpos : 0 < a - m := by linarith
    have h39 : Real.sqrt (9 * v) = 3 * Real.sqrt v := by
      rw [show (9 : ℝ) * v = 3 ^ 2 * v by norm_num, Real.sqrt_mul (by positivity),
        Real.sqrt_sq (by norm_num)]
    have : Real.sqrt (9 * v) < a - m := by
      rw [Real.sqrt_lt' hpos]
      exact hsq2
    rw [h39] at this
    linarith

theorem isAmountAnomalous_iff_real (txs : List Transaction)
    (h : 2 ≤ txs.length) (a : ℚ) :
    isAmountAnomalous (amountStats txs) a = true ↔
      specAmountThreshold txs < (a : ℝ) := by
  have hstats : amountStats txs = some (listMean (amounts txs),
      sampleVar (amounts txs)) := by
    unfold amountStats statsOf
    rw [if_pos]
    unfold amounts
    rwa [List.length_map]
  rw [hstats]
  unfold isAmountAnomalous specAmountThreshold
  rw [Bool.and_eq_true, decide_eq_true_iff, decide_eq_true_iff]
  rw [gt_mean_add_three_sqrt_iff (specVarAmount_nonneg txs h)]
  rw [← listMean_cast txs, ← sampleVar_cast txs]
  constructor
  · rintro ⟨h1, h2⟩
    constructor
    · exact_mod_cast h1
    · have h3 : ((9 * sampleVar (amounts txs) : ℚ) : ℝ) <
          (((a - listMean (amounts txs)) ^ 2 : ℚ) : ℝ) := by exact_mod_cast h2
      push_cast at h3
      linarith
  · rintro ⟨h1, h2⟩
    constructor
    · exact_mod_cast h1
    · have h3 : ((9 * sampleVar (amounts txs) : ℚ) : ℝ) <
          (((a - listMean (amounts txs)) ^ 2 : ℚ) : ℝ) := by
        push_cast
        linarith
      exact_mod_cast h3

set_option maxRecDepth 40000 in
/-- Claim C9: for at least two transactions, a transaction is flagged
amount-anomalous exactly when its amount strictly exceeds
`mean + 3 * sample standard deviation` of all amounts (no status filter),
and in the 99 x 10 + 1 x 10000 scenario exactly the 10000 transaction is
flagged. -/
theorem anomaly_threshold_spec :
    (∀ txs : List Transaction, 2 ≤ txs.length → ∀ t ∈ txs,
        (t ∈ anomalousTxs txs ↔ specAmountThreshold txs < (t.amount : ℝ))) ∧
    anomalousTxs scenario99 = [bigTx] := by
  constructor
  · intro txs hlen t ht
    unfold anomalousTxs
    rw [List.mem_filter]
    rw [isAmountAnomalous_iff_real txs hlen t.amount]
    constructor
    · rintro ⟨_, h2⟩; exact h2
    · intro h2; exact ⟨ht, h2⟩
  · decide

/-- Witness for C9: the 10000 transaction of the scenario, via the main
equivalence. -/
theorem anomaly_threshold_spec_witness :
    bigTx ∈ anomalousTxs scenario99 ↔
      specAmountThreshold scenario99 < (bigTx.amount : ℝ) :=
  anomaly_threshold_spec.1 scenario99 (by decide) bigTx (by decide)

/-! ## Claim C7: quantile-interpolation lemmas

pandas `Series.quantile` with linear interpolation is monotone in `p`; the
four tier boundaries therefore form an ascending chain, which yields the
tier disjointness and range invariants. -/

theorem quantileSorted_eq (s : List ℚ) (p : ℚ) (hne : s.length ≠ 0) :
    quantileSorted s p =
      s.getD (qIdx s p) 0 +
        (p * ((s.length : ℚ) - 1) - (qIdx s p : ℚ)) *
          (s.getD (qIdx s p + 1) (s.getD (qIdx s p) 0) - s.getD (qIdx s p) 0) := by
  unfold quantileSorted qIdx
  rw [if_neg hne]

theorem sorted_getD_mono {s : List ℚ} (hs : s.Sorted (· ≤ ·)) {i j : ℕ}
    (hij : i ≤ j) (hj : j < s.length) (d e : ℚ) :
    s.getD i d ≤ s.getD j e := by
  have hi : i < s.length := Nat.lt_of_le_of_lt hij hj
  rw [List.getD_eq_getElem s d hi, List.getD_eq_getElem s e hj]
  have hfin : (⟨i, hi⟩ : Fin s.length) ≤ ⟨j, hj⟩ := hij
  have := hs.rel_get_of_le hfin
  simpa using this

theorem sub_one_nonneg_of_length {s : List ℚ} (hne : s.length ≠ 0) :
    (0 : ℚ) ≤ (s.length : ℚ) - 1 := by
  have : 1 ≤ s.length := Nat.one_le_iff_ne_zero.mpr hne
  have : (1 : ℚ) ≤ (s.length : ℚ) := by exact_mod_cast this
  linarith

theorem qIdx_cast_le {s : List ℚ} {p : ℚ} (hp0 : 0 ≤ p) (hne : s.length ≠ 0) :
    ((qIdx s p : ℕ) : ℚ) ≤ p * ((s.length : ℚ) - 1) := by
  have hh0 : 0 ≤ p * ((s.length : ℚ) - 1) :=
    mul_nonneg hp0 (sub_one_nonneg_of_length hne)
  have hfl : (0 : ℤ) ≤ Int.floor (p * ((s.length : ℚ) - 1)) :=
    Int.floor_nonneg.mpr hh0
  unfold qIdx
  have hcast : (((Int.floor (p * ((s.length : ℚ) - 1))).toNat : ℕ) : ℚ) =
      ((Int.floor (p * ((s.length : ℚ) - 1)) : ℤ) : ℚ) := by
    exact_mod_cast congrArg (fun z : ℤ => (z : ℚ)) (Int.toNat_of_nonneg hfl)
  rw [hcast]
  exact Int.floor_le _

theorem lt_qIdx_cast_add_one {s : List ℚ} {p : ℚ} (hp0 : 0 ≤ p)
    (hne : s.length ≠ 0) :
    p * ((s.length : ℚ) - 1) < ((qIdx s p : ℕ) : ℚ) + 1 := by
  have hh0 : 0 ≤ p * ((s.length : ℚ) - 1) :=
    mul_nonneg hp0 (sub_one_nonneg_of_length hne)
  have hfl : (0 : ℤ) ≤ Int.floor (p * ((s.length : ℚ) - 1)) :=
    Int.floor_nonneg.mpr hh0
  unfold qIdx
  have hcast : (((Int.floor (p * ((s.length : ℚ) - 1))).toNat : ℕ) : ℚ) =
      ((Int.floor (p * ((s.length : ℚ) - 1)) : ℤ) : ℚ) := by
    exact_mod_cast congrArg (fun z : ℤ => (z : ℚ)) (Int.toNat_of_nonneg hfl)
  rw [hcast]
  exact Int.lt_floor_add_one _

theorem qIdx_lt_length {s : List ℚ} {p : ℚ} (hp0 : 0 ≤ p) (hp1 : p ≤ 1)
    (hne : s.length ≠ 0) : qIdx s p < s.length := by
  have hub : p * ((s.length : ℚ) - 1) ≤ (s.length : ℚ) - 1 :=
    mul_le_of_le_one_left (sub_one_nonneg_of_length hne) hp1
  have h1 : ((qIdx s p : ℕ) : ℚ) ≤ (s.length : ℚ) - 1 :=
    le_trans (qIdx_cast_le hp0 hne) hub
  have h2 : ((qIdx s p : ℕ) : ℚ) + 1 ≤ (s.length : ℚ) := by linarith
  exact_mod_cast h2

theorem qIdx_mono {s : List ℚ} {p₁ p₂ : ℚ} (h12 : p₁ ≤ p₂)
    (hne : s.length ≠ 0) : qIdx s p₁ ≤ qIdx s p₂ := by
  unfold qIdx
  refine Int.toNat_le_toNat (Int.floor_le_floor ?_)
  exact mul_le_mul_of_nonneg_right h12 (sub_one_nonneg_of_length hne)

theorem getD_succ_ge {s : List ℚ} (hs : s.Sorted (· ≤ ·)) (p : ℚ) :
    s.getD (qIdx s p) 0 ≤ s.getD (qIdx s p + 1) (s.getD (qIdx s p) 0) := by
  by_cases hb : qIdx s p + 1 < s.length
  · exact sorted_getD_mono hs (Nat.le_succ _) hb 0 _
  · rw [List.getD_eq_default s _ (Nat.not_lt.mp hb)]

theorem quantileSorted_ge {s : List ℚ} (hs : s.Sorted (· ≤ ·)) {p : ℚ}
    (hp0 : 0 ≤ p) (hne : s.length ≠ 0) :
    s.getD (qIdx s p) 0 ≤ quantileSorted s p := by
  rw [quantileSorted_eq s p hne]
  have hg : 0 ≤ p * ((s.length : ℚ) - 1) - (qIdx s p : ℚ) := by
    have := qIdx_cast_le hp0 hne
    linarith
  have hba : 0 ≤ s.getD (qIdx s p + 1) (s.getD (qIdx s p) 0) -
      s.getD (qIdx s p) 0 := by
    have := getD_succ_ge hs p
    linarith
  nlinarith

theorem quantileSorted_le {s : List ℚ} (hs : s.Sorted (· ≤ ·)) {p : ℚ}
    (hp0 : 0 ≤ p) (hne : s.length ≠ 0) :
    quantileSorted s p ≤ s.getD (qIdx s p + 1) (s.getD (qIdx s p) 0) := by
  rw [quantileSorted_eq s p hne]
  have hg1 : p * ((s.length : ℚ) - 1) - (qIdx s p : ℚ) ≤ 1 := by
    have := lt_qIdx_cast_add_one hp0 hne
    linarith
  have hg0 : 0 ≤ p * ((s.length : ℚ) - 1) - (qIdx s p : ℚ) := by
    have := qIdx_cast_le hp0 hne
    linarith
  have hba : 0 ≤ s.getD (qIdx s p + 1) (s.getD (qIdx s p) 0) -
      s.getD (qIdx s p) 0 := by
    have := getD_succ_ge hs p
    linarith
  nlinarith

theorem quantileSorted_mono {s : List ℚ} (hs : s.Sorted (· ≤ ·))
    {p₁ p₂ : ℚ} (h0 : 0 ≤ p₁) (h12 : p₁ ≤ p₂) (h1 : p₂ ≤ 1) :
    quantileSorted s p₁ ≤ quantileSorted s p₂ := by
  by_cases hne : s.length = 0
  · unfold quantileSorted
    rw [if_pos hne, if_pos hne]
  · have h02 : 0 ≤ p₂ := le_trans h0 h12
    have h11 : p₁ ≤ 1 := le_trans h12 h1
    have hidx : qIdx s p₁ ≤ qIdx s p₂ := qIdx_mono h12 hne
    rcases Nat.lt_or_ge (qIdx s p₁) (qIdx s p₂) with hlt | hge
    · have hq1 : quantileSorted s p₁ ≤
          s.getD (qIdx s p₁ + 1) (s.getD (qIdx s p₁) 0) :=
        quantileSorted_le hs h0 hne
      have hmid : s.getD (qIdx s p₁ + 1) (s.getD (qIdx s p₁) 0) ≤
          s.getD (qIdx s p₂) 0 :=
        sorted_getD_mono hs hlt (qIdx_lt_length h02 h1 hne) _ 0
      have hq2 : s.getD (qIdx s p₂) 0 ≤ quantileSorted s p₂ :=
        quantileSorted_ge hs h02 hne
      linarith
    · have heq : qIdx s p₁ = qIdx s p₂ := Nat.le_antisymm hidx hge
      rw [quantileSorted_eq s p₁ hne, quantileSorted_eq s p₂ hne, heq]
      have hh12 : p₁ * ((s.length : ℚ) - 1) ≤ p₂ * ((s.length : ℚ) - 1) :=
        mul_le_mul_of_nonneg_right h12 (sub_one_nonneg_of_length hne)
      have hba : 0 ≤ s.getD (qIdx s p₂ + 1) (s.getD (qIdx s p₂) 0) -
          s.getD (qIdx s p₂) 0 := by
        have := getD_succ_ge hs p₂
        linarith
      nlinarith

theorem quantileOf_mono (l : List ℚ) {p₁ p₂ : ℚ} (h0 : 0 ≤ p₁)
    (h12 : p₁ ≤ p₂) (h1 : p₂ ≤ 1) :
    quantileOf l p₁ ≤ quantileOf l p₂ :=
  quantileSorted_mono (List.sorted_insertionSort (· ≤ ·) l) h0 h12 h1

/-! ## Claim C7: tier lemmas -/

theorem tierPred_lower (txs : List Transaction) {i : ℕ} {x : ℚ} (hi : i < 4)
    (h : tierPred txs i x = true) :
    quantileOf (spendList txs) (tierLowerP i) ≤ x := by
  interval_cases i <;>
    simp only [tierPred, tierLowerP, if_true, if_false, Bool.and_eq_true,
      decide_eq_true_iff, reduceIte, Nat.succ_ne_zero, OfNat.ofNat_ne_zero] at h <;>
    first
    | exact h
    | exact h.1

theorem tierPred_upper (txs : List Transaction) {i : ℕ} {x : ℚ} (h1i : 1 ≤ i)
    (hi : i < 4) (h : tierPred txs i x = true) :
    x < quantileOf (spendList txs) (tierLowerP (i - 1)) := by
  interval_cases i <;>
    simp only [tierPred, tierLowerP, Bool.and_eq_true, decide_eq_true_iff,
      reduceIte, Nat.succ_ne_zero, OfNat.ofNat_ne_zero] at h <;>
    exact h.2

theorem tierPred_not_both (txs : List Transaction) {i j : ℕ} {x : ℚ}
    (hi : i < 4) (hj : j < 4) (hij : i ≠ j)
    (h1 : tierPred txs i x = true) (h2 : tierPred txs j x = true) : False := by
  have h46 : quantileOf (spendList txs) (4/10) ≤ quantileOf (spendList txs) (6/10) :=
    quantileOf_mono _ (by norm_num) (by norm_num) (by norm_num)
  have h68 : quantileOf (spendList txs) (6/10) ≤ quantileOf (spendList txs) (8/10) :=
    quantileOf_mono _ (by norm_num) (by norm_num) (by norm_num)
  have h89 : quantileOf (spendList txs) (8/10) ≤ quantileOf (spendList txs) (95/100) :=
    quantileOf_mono _ (by norm_num) (by norm_num) (by norm_num)
  interval_cases i <;> interval_cases j <;>
    first
    | exact hij rfl
    | (simp only [tierPred, tierLowerP, Bool.and_eq_true, decide_eq_true_iff,
        reduceIte, Nat.succ_ne_zero, OfNat.ofNat_ne_zero] at h1 h2
       obtain ⟨h1a, h1b⟩ := And.intro h1 h2
       first
       | linarith [h1a.1, h1a.2, h1b.1, h1b.2]
       | linarith [h1a.1, h1a.2, h1b]
       | linarith [h1a, h1b.1, h1b.2])

theorem tierPred_ge_p40 (txs : List Transaction) {i : ℕ} {x : ℚ} (hi : i < 4)
    (h : tierPred txs i x = true) :
    quantileOf (spendList txs) (tierLowerP 3) ≤ x := by
  have h46 : quantileOf (spendList txs) (4/10) ≤ quantileOf (spendList txs) (6/10) :=
    quantileOf_mono _ (by norm_num) (by norm_num) (by norm_num)
  have h68 : quantileOf (spendList txs) (6/10) ≤ quantileOf (spendList txs) (8/10) :=
    quantileOf_mono _ (by norm_num) (by norm_num) (by norm_num)
  have h89 : quantileOf (spendList txs) (8/10) ≤ quantileOf (spendList txs) (95/100) :=
    quantileOf_mono _ (by norm_num) (by norm_num) (by norm_num)
  have hl := tierPred_lower txs hi h
  interval_cases i <;>
    simp only [tierLowerP] at hl ⊢ <;> linarith

theorem mem_tierMembers {txs : List Transaction} {i : ℕ} {p : SpendProfile} :
    p ∈ tierMembers txs i ↔
      p ∈ profilesOf txs ∧ tierPred txs i p.total_spent = true := by
  unfold tierMembers
  rw [List.mem_filter]

theorem profile_total_spent_cents {txs : List Transaction} {p : SpendProfile}
    (hp : p ∈ profilesOf txs) : isCents p.total_spent := by
  unfold profilesOf at hp
  obtain ⟨c, _, rfl⟩ := List.mem_map.mp hp
  exact round2_cents _

theorem foldl_min_le_init (xs : List ℚ) : ∀ a : ℚ, xs.foldl min a ≤ a := by
  induction xs with
  | nil => intro a; simp
  | cons y ys ih =>
      intro a
      calc (y :: ys).foldl min a = ys.foldl min (min a y) := rfl
      _ ≤ min a y := ih _
      _ ≤ a := min_le_left _ _

theorem foldl_min_le_mem (xs : List ℚ) :
    ∀ (a x : ℚ), x ∈ xs → xs.foldl min a ≤ x := by
  induction xs with
  | nil => intro a x hx; cases hx
  | cons y ys ih =>
      intro a x hx
      rcases List.mem_cons.mp hx with rfl | hx'
      · calc (x :: ys).foldl min a = ys.foldl min (min a x) := rfl
        _ ≤ min a x := foldl_min_le_init _ _
        _ ≤ x := min_le_right _ _
      · exact ih (min a y) x hx'

theorem foldl_min_mem (xs : List ℚ) : ∀ a : ℚ, xs.foldl min a ∈ a :: xs := by
  induction xs with
  | nil => intro a; simp
  | cons y ys ih =>
      intro a
      have h := ih (min a y)
      rcases List.mem_cons.mp h with he | hm
      · rcases min_choice a y with hc | hc
        · rw [show (y :: ys).foldl min a = ys.foldl min (min a y) from rfl, he, hc]
          simp
        · rw [show (y :: ys).foldl min a = ys.foldl min (min a y) from rfl, he, hc]
          simp
      · rw [show (y :: ys).foldl min a = ys.foldl min (min a y) from rfl]
        simp [hm]

theorem listMin_le {l : List ℚ} {x : ℚ} (hx : x ∈ l) : listMin l ≤ x := by
  cases l with
  | nil => cases hx
  | cons y ys =>
      rcases List.mem_cons.mp hx with rfl | hx'
      · exact foldl_min_le_init ys x
      · exact foldl_min_le_mem ys y x hx'

theorem listMin_mem {l : List ℚ} (h : l ≠ []) : listMin l ∈ l := by
  cases l with
  | nil => exact absurd rfl h
  | cons y ys => exact foldl_min_mem ys y

theorem foldl_max_ge_init (xs : List ℚ) : ∀ a : ℚ, a ≤ xs.foldl max a := by
  induction xs with
  | nil => intro a; simp
  | cons y ys ih =>
      intro a
      calc a ≤ max a y := le_max_left _ _
      _ ≤ ys.foldl max (max a y) := ih _
      _ = (y :: ys).foldl max a := rfl

theorem foldl_max_ge_mem (xs : List ℚ) :
    ∀ (a x : ℚ), x ∈ xs → x ≤ xs.foldl max a := by
  induction xs with
  | nil => intro a x hx; cases hx
  | cons y ys ih =>
      intro a x hx
      rcases List.mem_cons.mp hx with rfl | hx'
      · calc x ≤ max a x := le_max_right _ _
        _ ≤ ys.foldl max (max a x) := foldl_max_ge_init _ _
        _ = (x :: ys).foldl max a := rfl
      · exact ih (max a y) x hx'

theorem foldl_max_mem (xs : List ℚ) : ∀ a : ℚ, xs.foldl max a ∈ a :: xs := by
  induction xs with
  | nil => intro a; simp
  | cons y ys ih =>
      intro a
      have h := ih (max a y)
      rcases List.mem_cons.mp h with he | hm
      · rcases max_choice a y with hc | hc
        · rw [show (y :: ys).foldl max a = ys.foldl max (max a y) from rfl, he, hc]
          simp
        · rw [show (y :: ys).foldl max a = ys.foldl max (max a y) from rfl, he, hc]
          simp
      · rw [show (y :: ys).foldl max a = ys.foldl max (max a y) from rfl]
        simp [hm]

theorem le_listMax {l : List ℚ} {x : ℚ} (hx : x ∈ l) : x ≤ listMax l := by
  cases l with
  | nil => cases hx
  | cons y ys =>
      rcases List.mem_cons.mp hx with rfl | hx'
      · exact foldl_max_ge_init ys x
      · exact foldl_max_ge_mem ys y x hx'

theorem listMax_mem {l : List ℚ} (h : l ≠ []) : listMax l ∈ l := by
  cases l with
  | nil => exact absurd rfl h
  | cons y ys => exact foldl_max_mem ys y

theorem mem_customerSegments {txs : List Transaction} {s : Segment} :
    s ∈ customerSegments txs ↔
      ∃ i : ℕ, i < 4 ∧ tierMembers txs i ≠ [] ∧ s = mkSegment txs i := by
  unfold customerSegments
  rw [List.mem_filterMap]
  constructor
  · rintro ⟨i, hir, hf⟩
    have hi4 : i < 4 := List.mem_range.mp hir
    by_cases hz : (tierMembers txs i).length = 0
    · rw [if_pos hz] at hf
      cases hf
    · rw [if_neg hz] at hf
      injection hf with hf
      exact ⟨i, hi4, fun he => hz (by rw [he]; rfl), hf.symm⟩
  · rintro ⟨i, hi4, hne, rfl⟩
    refine ⟨i, List.mem_range.mpr hi4, ?_⟩
    rw [if_neg (fun hz => hne (List.length_eq_zero.mp hz))]

theorem tier_spends_cents {txs : List Transaction} {i : ℕ} {q : ℚ}
    (hq : q ∈ (tierMembers txs i).map (·.total_spent)) : isCents q := by
  obtain ⟨p, hp, rfl⟩ := List.mem_map.mp hq
  exact profile_total_spent_cents (mem_tierMembers.mp hp).1

theorem mkSegment_min_spend_ge (txs : List Transaction) {i : ℕ} (hi : i < 4)
    (hne : tierMembers txs i ≠ []) :
    quantileOf (spendList txs) (tierLowerP i) ≤ (mkSegment txs i).min_spend := by
  have hsne : (tierMembers txs i).map (·.total_spent) ≠ [] := by
    simpa [List.map_eq_nil_iff] using hne
  have hmem := listMin_mem hsne
  have hid : (mkSegment txs i).min_spend =
      listMin ((tierMembers txs i).map (·.total_spent)) := by
    show round2 (listMin ((tierMembers txs i).map (·.total_spent))) = _
    exact round2_eq_self_of_cents (tier_spends_cents hmem)
  obtain ⟨p, hp, hps⟩ := List.mem_map.mp hmem
  have hlow := tierPred_lower txs hi (mem_tierMembers.mp hp).2
  rw [hid, ← hps]
  exact hlow

theorem mkSegment_max_spend_lt (txs : List Transaction) {i : ℕ} (h1i : 1 ≤ i)
    (hi : i < 4) (hne : tierMembers txs i ≠ []) :
    (mkSegment txs i).max_spend <
      quantileOf (spendList txs) (tierLowerP (i - 1)) := by
  have hsne : (tierMembers txs i).map (·.total_spent) ≠ [] := by
    simpa [List.map_eq_nil_iff] using hne
  have hmem := listMax_mem hsne
  have hid : (mkSegment txs i).max_spend =
      listMax ((tierMembers txs i).map (·.total_spent)) := by
    show round2 (listMax ((tierMembers txs i).map (·.total_spent))) = _
    exact round2_eq_self_of_cents (tier_spends_cents hmem)
  obtain ⟨p, hp, hps⟩ := List.mem_map.mp hmem
  have hup := tierPred_upper txs h1i hi (mem_tierMembers.mp hp).2
  rw [hid, ← hps]
  exact hup

/-- Claim C7: the four quantile tiers (Platinum >= P95, Gold in [P80, P95),
Silver in [P60, P80), Bronze in [P40, P60)) are pairwise disjoint; every
reported segment comes from a non-empty tier with `min_spend >=` its lower
percentile bound and (except Platinum) `max_spend <` its upper percentile
bound; and spend profiles below the 40th percentile belong to no tier. -/
theorem segmentation_tier_invariants :
    ∀ txs : List Transaction,
      (∀ i j : ℕ, i < 4 → j < 4 → i ≠ j → ∀ p : SpendProfile,
          p ∈ tierMembers txs i → p ∉ tierMembers txs j) ∧
      (∀ s ∈ customerSegments txs, ∃ i : ℕ, i < 4 ∧
          tierMembers txs i ≠ [] ∧ s = mkSegment txs i ∧
          quantileOf (spendList txs) (tierLowerP i) ≤ s.min_spend ∧
          (i ≠ 0 →
            s.max_spend < quantileOf (spendList txs) (tierLowerP (i - 1)))) ∧
      (∀ p ∈ profilesOf txs,
          p.total_spent < quantileOf (spendList txs) (tierLowerP 3) →
          ∀ i : ℕ, i < 4 → p ∉ tierMembers txs i) := by
  intro txs
  refine ⟨?_, ?_, ?_⟩
  · intro i j hi hj hij p hpi hpj
    exact tierPred_not_both txs hi hj hij
      (mem_tierMembers.mp hpi).2 (mem_tierMembers.mp hpj).2
  · intro s hs
    obtain ⟨i, hi, hne, rfl⟩ := mem_customerSegments.mp hs
    refine ⟨i, hi, hne, rfl, mkSegment_min_spend_ge txs hi hne, ?_⟩
    intro hne0
    exact mkSegment_max_spend_lt txs (Nat.one_le_iff_ne_zero.mpr hne0) hi hne
  · intro p hp hlt i hi hmem
    have := tierPred_ge_p40 txs hi (mem_tierMembers.mp hmem).2
    linarith

/-- Witness for C7: with a single 100-spend customer, that customer is in
the Platinum tier and the theorem places it outside the Gold tier. -/
theorem segmentation_tier_invariants_witness :
    (⟨1, 1, 100, 100, 0, 0⟩ : SpendProfile) ∉
      tierMembers [⟨1, 1, 0, 100, "completed"⟩] 1 :=
  (segmentation_tier_invariants [⟨1, 1, 0, 100, "completed"⟩]).1 0 1
    (by decide) (by decide) (by decide) ⟨1, 1, 100, 100, 0, 0⟩ (by decide)

/-! ## Claim C10 -/

/-- Claim C10: every entry of `customer_segments` has a positive
`customer_count` (a tier with no customers is omitted entirely), and the
list can have fewer than four entries even when spend profiles exist: with
a single customer only the Platinum tier is emitted. -/
theorem empty_tiers_omitted :
    (∀ (txs : List Transaction) (s : Segment),
        s ∈ customerSegments txs → 0 < s.customer_count) ∧
    ((customerSegments [⟨1, 1, 0, 100, "completed"⟩]).length = 1 ∧
      profilesOf [⟨1, 1, 0, 100, "completed"⟩] ≠ []) := by
  constructor
  · intro txs s hs
    obtain ⟨i, hi, hne, rfl⟩ := mem_customerSegments.mp hs
    show 0 < (tierMembers txs i).length
    exact List.length_pos.mpr hne
  · constructor <;> decide

/-- Witness for C10: the Platinum segment of the single-customer input has
a positive count. -/
theorem empty_tiers_omitted_witness :
    0 < (mkSegment [⟨1, 1, 0, 100, "completed"⟩] 0).customer_count :=
  empty_tiers_omitted.1 [⟨1, 1, 0, 100, "completed"⟩]
    (mkSegment [⟨1, 1, 0, 100, "completed"⟩] 0) (by decide)

end DataPlatform
